import Mathlib

/-!
Shallow embedding of the comparative-aggregation logic of
`src/Logisticsdata.py` (a pandas/Streamlit logistics dashboard), restricted to
the parts the specification's claims are about:

* `load_data` (lines 22-56): column coercion, `dropna` on 到货年月,
  `pd.to_numeric(..., errors='coerce').fillna(0)` on four numeric columns;
* `get_prev_month` (lines 93-100) and the current-month KPI baseline
  (lines 166-198);
* `month_to_num` and the trend pipeline (lines 1006-1163): period-range
  filter, status filter, dimension filter, the three-step group aggregation
  (order count / on-time rate / mean deviations), the 筛选后平均值 summary
  row, and `calculate_monthly_diff` (period-over-period deltas);
* the filtered-average computation of the raw-data tab (lines 1677-1681),
  `pd.to_numeric(...).dropna()` then `round(mean, 2)`.

Modelling conventions: pandas cells that may be NaN are `Option` values
(`none` = NaN); floats are idealized as `ℚ`, with Python's `round` modelled
as exact round-half-to-even on rationals; a dataframe is a `List` of rows.
Python's `int(...)` (applied to hyphen-stripped month strings) is modelled as
decimal-digit parsing, any non-digit making it fail; `datetime.strptime(s,
"%Y-%m")` is modelled as "1-4 year digits, a dash, 1-2 month digits, nothing
else", with the `datetime` range checks (year 1-9999, month 1-12).
-/

namespace Logistics

/-! ### Decimal digits and month-string parsing -/

/-- Numeric value of a decimal digit character. -/
def digitVal (c : Char) : ℕ := c.toNat - 48

/-- Value of a list of decimal digit characters (most significant first). -/
def digitsVal (cs : List Char) : ℕ := cs.foldl (fun a c => a * 10 + digitVal c) 0

/-- The decimal digit character for `n ≤ 9`. -/
def digitChar : ℕ → Char
  | 0 => '0' | 1 => '1' | 2 => '2' | 3 => '3' | 4 => '4'
  | 5 => '5' | 6 => '6' | 7 => '7' | 8 => '8' | 9 => '9'
  | _ => '?'

/-- `month_to_num` (line 1007): `int(month_str.replace("-", ""))`, and `0` on
any parse failure.  `replace("-", "")` removes every hyphen; `int` succeeds on
a non-empty all-digit string. -/
def month_to_num (s : String) : ℕ :=
  let cs := s.toList.filter (fun c => c ≠ '-')
  if cs ≠ [] ∧ cs.all Char.isDigit then digitsVal cs else 0

/-- `datetime.strptime(s, "%Y-%m")`: CPython's `%Y` matches exactly four
digits (`_strptime` uses the pattern `\d\d\d\d`), then a literal dash, then
1-2 month digits consuming the rest of the string; the constructed
`datetime` requires `1 ≤ year` and `1 ≤ month ≤ 12`.  Returns
`(year, month)`. -/
def parseYM (s : String) : Option (ℕ × ℕ) :=
  let cs := s.toList
  let ys := cs.takeWhile Char.isDigit
  match cs.dropWhile Char.isDigit with
  | '-' :: ms =>
      if ys.length = 4 ∧ 1 ≤ ms.length ∧ ms.length ≤ 2 ∧
          ms.all Char.isDigit then
        let y := digitsVal ys
        let m := digitsVal ms
        if 1 ≤ y ∧ 1 ≤ m ∧ m ≤ 12 then some (y, m) else none
      else none
  | _ => none

/-- The character list `strftime`'s `%Y` produces for a `datetime` year
(1-9999): its decimal digits *without* zero-padding — CPython on glibc
prints `datetime(999, 12, 31).strftime("%Y")` as `"999"`. -/
def yearDigits (y : ℕ) : List Char :=
  if y < 10 then [digitChar (y % 10)]
  else if y < 100 then [digitChar (y / 10 % 10), digitChar (y % 10)]
  else if y < 1000 then
    [digitChar (y / 100 % 10), digitChar (y / 10 % 10), digitChar (y % 10)]
  else [digitChar (y / 1000 % 10), digitChar (y / 100 % 10),
        digitChar (y / 10 % 10), digitChar (y % 10)]

/-- `strftime("%Y-%m")`: unpadded year, dash, zero-padded 2-digit month. -/
def formatYM (y m : ℕ) : String :=
  ⟨yearDigits y ++ '-' :: [digitChar (m / 10 % 10), digitChar (m % 10)]⟩

/-- `get_prev_month` (lines 93-100): parse the month, take the first day of
that month minus one day, format as `"%Y-%m"`; any exception yields `""`.
For month 1 of year 1 the subtraction underflows `datetime.min`
(`OverflowError`), which the bare `except` turns into `""` as well. -/
def get_prev_month (s : String) : String :=
  match parseYM s with
  | none => ""
  | some (y, m) =>
      if m = 1 then (if y = 1 then "" else formatYM (y - 1) 12)
      else formatYM y (m - 1)

/-! ### Data model and `load_data` -/

/-- One raw spreadsheet row, after pandas' type coercions are applied cell by
cell: `month` is the `pd.to_datetime(..., errors='coerce').strftime("%Y-%m")`
result (`none` = `NaT`); each numeric cell is the
`pd.to_numeric(cell, errors='coerce')` result (`none` = NaN, i.e. the cell
was empty or a non-numeric string).  `shipPickup` stands for the
stage-duration columns (发货-提取 …) that `load_data` does *not* touch;
`signDispatch` stands for the four columns in `numeric_cols`
(签收-发货时间 …) that `load_data` coerces, besides the two deviation
columns which are modelled separately as `absDiff`/`diff`. -/
structure RawRecord where
  fba : Option String
  month : Option String
  freight : Option String
  warehouse : Option String
  status : Option String
  shipPickup : Option ℚ
  signDispatch : Option ℚ
  absDiff : Option ℚ
  diff : Option ℚ
deriving DecidableEq, Repr

/-- A row of the loaded dataframe `df_red`: 到货年月 is non-null (the
`dropna` at line 44 removed the rest) and the `numeric_cols` are plain
numbers (`fillna(0)` at line 55). -/
structure Record where
  fba : Option String
  month : String
  freight : Option String
  warehouse : Option String
  status : Option String
  shipPickup : Option ℚ
  signDispatch : ℚ
  absDiff : ℚ
  diff : ℚ
deriving DecidableEq, Repr

/-- `load_data` on one row: dropped iff 到货年月 is null, numeric columns
`fillna(0)`, stage-duration columns left as they are. -/
def loadRecord (r : RawRecord) : Option Record :=
  r.month.map fun m =>
    { fba := r.fba, month := m, freight := r.freight, warehouse := r.warehouse,
      status := r.status, shipPickup := r.shipPickup,
      signDispatch := r.signDispatch.getD 0,
      absDiff := r.absDiff.getD 0, diff := r.diff.getD 0 }

/-- `load_data` (lines 22-56), applied to an already-cell-coerced sheet. -/
def load_data (rs : List RawRecord) : List Record := rs.filterMap loadRecord

/-- The 提前/延期 value counted as on time. -/
def ON_TIME : String := "提前/准时"

/-- The 提前/延期 value meaning delayed. -/
def DELAYED : String := "延期"

/-! ### Rounding (Python `round`, idealized over `ℚ`) -/

/-- Round-half-to-even to an integer. -/
def rhalfEven (q : ℚ) : ℤ :=
  if q - ⌊q⌋ < 1/2 then ⌊q⌋
  else if 1/2 < q - ⌊q⌋ then ⌊q⌋ + 1
  else if ⌊q⌋ % 2 = 0 then ⌊q⌋ else ⌊q⌋ + 1

/-- `round(q, prec)` with banker's rounding. -/
def roundQ (prec : ℕ) (q : ℚ) : ℚ := (rhalfEven (q * 10 ^ prec) : ℚ) / 10 ^ prec

/-- Mean of a list of rationals (pandas `.mean()` over a NaN-free column). -/
def mean (xs : List ℚ) : ℚ := xs.sum / xs.length

/-! ### Trend pipeline: filters -/

/-- 分析维度选择 (line 917): 整体趋势 / 货代维度 / 仓库维度. -/
inductive Dimension
  | overall | byFreight | byWarehouse
deriving DecidableEq, Repr

/-- 订单状态筛选 (line 965): 全部订单 / 仅提前准时 / 仅延期. -/
inductive DelayFilter
  | all | onTimeOnly | delayOnly
deriving DecidableEq, Repr

/-- 表格显示模式 (line 973): 月份汇总（无状态） / 月份+准时状态（明细）. -/
inductive ViewMode
  | summary | detail
deriving DecidableEq, Repr

/-- The dimension column's value of a record (`none` when either the record's
cell is NaN or no dimension column is selected). -/
def dimValue : Dimension → Record → Option String
  | .overall, _ => none
  | .byFreight, r => r.freight
  | .byWarehouse, r => r.warehouse

/-- Period-range filter (lines 1014-1018): keep the records whose converted
month lies within the converted bounds, both ends included. -/
def periodFilter (startM endM : String) (rs : List Record) : List Record :=
  rs.filter fun r =>
    decide (month_to_num startM ≤ month_to_num r.month) &&
    decide (month_to_num r.month ≤ month_to_num endM)

/-- 订单状态筛选 (lines 1020-1023): equality against the literal labels; a
NaN status never equals either label, so it survives only `全部订单`. -/
def statusFilterF : DelayFilter → List Record → List Record
  | .all, rs => rs
  | .onTimeOnly, rs => rs.filter fun r => decide (r.status = some ON_TIME)
  | .delayOnly, rs => rs.filter fun r => decide (r.status = some DELAYED)

/-- Single-value dimension filter (lines 1026-1031): applied only when a
concrete 货代/仓库 is selected (`sel = some v`); `selected_dimension` is
always `None` in 整体趋势 mode. -/
def dimFilterF (dim : Dimension) (sel : Option String) (rs : List Record) :
    List Record :=
  match sel, dim with
  | none, _ => rs
  | some _, .overall => rs
  | some v, _ => rs.filter fun r => decide (dimValue dim r = some v)

/-- `df_trend_filtered` (lines 1014-1031). -/
def trendFiltered (startM endM : String) (df : DelayFilter) (dim : Dimension)
    (sel : Option String) (rs : List Record) : List Record :=
  dimFilterF dim sel (statusFilterF df (periodFilter startM endM rs))

/-! ### Trend pipeline: grouping and aggregation (lines 1034-1102) -/

/-- A grouping key: the 到货年月 value, the dimension column's value when a
dimension column is in `group_cols`, the 提前/延期 value when the status
column is in `group_cols` (明细 mode); `none` in a component means that
column is not part of `group_cols`. -/
structure GroupKey where
  month : String
  dimv : Option String
  stat : Option String
deriving DecidableEq, Repr

/-- The key a record contributes to, or `none` when pandas `groupby` drops
the row because one of its grouping cells is NaN. -/
def recordKey (dim : Dimension) (vm : ViewMode) (r : Record) : Option GroupKey :=
  let dk : Option (Option String) :=
    match dim with
    | .overall => some none
    | _ => (dimValue dim r).map some
  let sk : Option (Option String) :=
    match vm with
    | .summary => some none
    | .detail => r.status.map some
  match dk, sk with
  | some d, some s => some ⟨r.month, d, s⟩
  | _, _ => none

/-- Code-point lexicographic comparison of strings as character lists —
Python's `str` comparison, which is what pandas `sort_values` and a sorted
`groupby` use on these columns. -/
def strCmp : List Char → List Char → Ordering
  | [], [] => .eq
  | [], _ :: _ => .lt
  | _ :: _, [] => .gt
  | a :: as, b :: bs =>
      if a.toNat < b.toNat then .lt
      else if b.toNat < a.toNat then .gt
      else strCmp as bs

/-- Comparison of an optional string column cell (a missing component sorts
first). -/
def optCmp : Option String → Option String → Ordering
  | none, none => .eq
  | none, some _ => .lt
  | some _, none => .gt
  | some a, some b => strCmp a.toList b.toList

/-- Sort order of `groupby(group_cols, sort=True)`: lexicographic on the
grouping tuple in column order (month string, then dimension, then
status). -/
def keyCmp : GroupKey → GroupKey → Ordering :=
  compareLex (Ordering.byKey (fun k => k.month.toList) strCmp)
    (compareLex (Ordering.byKey GroupKey.dimv optCmp)
      (Ordering.byKey GroupKey.stat optCmp))

/-- `groupby` key order as a relation. -/
def KLE (a b : GroupKey) : Prop := keyCmp a b ≠ Ordering.gt

instance : DecidableRel KLE := fun a b =>
  inferInstanceAs (Decidable (keyCmp a b ≠ Ordering.gt))

/-- The distinct group keys of the filtered records, in `groupby`'s sorted
order; a record with a NaN grouping cell contributes no key. -/
def groupKeys (dim : Dimension) (vm : ViewMode) (rs : List Record) : List GroupKey :=
  List.insertionSort KLE ((rs.filterMap (recordKey dim vm)).dedup)

/-- The records of one group. -/
def groupRecords (dim : Dimension) (vm : ViewMode) (k : GroupKey)
    (rs : List Record) : List Record :=
  rs.filter fun r => decide (recordKey dim vm r = some k)

/-- 准时率 (line 1068): on-time count over total with the
`.replace(0, 1)` guard on the denominator. -/
def rateCalc (onTime total : ℕ) : ℚ :=
  (onTime : ℚ) / (if total = 0 then 1 else (total : ℚ))

/-- One aggregated output row.  `cnt` is 订单个数, `rate` is 准时率,
`absMean`/`diffMean` are the two 差值_均值 columns; the four `…D` fields are
the 环比差值 columns added later by `calculate_monthly_diff` (`none` = the
column is absent, or NaN as on the re-prepended average row). -/
structure Row where
  month : String
  dimv : Option String
  stat : Option String
  cnt : ℚ
  rate : ℚ
  absMean : ℚ
  diffMean : ℚ
  cntD : Option ℚ := none
  rateD : Option ℚ := none
  absD : Option ℚ := none
  diffD : Option ℚ := none
deriving DecidableEq, Repr

instance : Inhabited Row := ⟨⟨"", none, none, 0, 0, 0, 0, none, none, none, none⟩⟩

/-- Steps 1-3 of the aggregation (lines 1049-1083) for one group: 订单个数 is
`count()` of the FBA号 column, i.e. the number of non-null FBA号 cells in the
group; 准时率 is the mean of `是否准时 = (提前/延期 == "提前/准时")` written
as on-time over total; the 均值 columns are plain means (those columns were
`fillna(0)`-ed at load, so no NaN is dropped). -/
def groupRow (dim : Dimension) (vm : ViewMode) (k : GroupKey)
    (rs : List Record) : Row :=
  let g := groupRecords dim vm k rs
  { month := k.month, dimv := k.dimv, stat := k.stat,
    cnt := (g.countP fun r => r.fba.isSome : ℕ),
    rate := rateCalc (g.countP fun r => decide (r.status = some ON_TIME)) g.length,
    absMean := mean (g.map Record.absDiff),
    diffMean := mean (g.map Record.diff) }

/-- Sort order of step 5 and of `calculate_monthly_diff`'s `sort_values`
(`["年月数值"] + [c for c in group_cols if c != COL_DELIVERY_MONTH]`): the
converted month number, then the dimension column when grouped by one, then
the status column in 明细 mode. -/
def rowCmp (dim : Dimension) (vm : ViewMode) : Row → Row → Ordering :=
  compareLex (Ordering.byKey (fun r => month_to_num r.month) compare)
    (compareLex
      (Ordering.byKey (fun r => if dim = Dimension.overall then none else r.dimv) optCmp)
      (Ordering.byKey (fun r => if vm = ViewMode.detail then r.stat else none) optCmp))

/-- Row order used by `sort_values` in step 5 and in
`calculate_monthly_diff`. -/
def RLE (dim : Dimension) (vm : ViewMode) (a b : Row) : Prop :=
  rowCmp dim vm a b ≠ Ordering.gt

instance (dim : Dimension) (vm : ViewMode) : DecidableRel (RLE dim vm) := fun a b =>
  inferInstanceAs (Decidable (rowCmp dim vm a b ≠ Ordering.gt))

/-- `trend_data` (steps 1-5, lines 1034-1102): one row per group key of the
filtered records, sorted by (年月数值, dimension, status).  The merges of
steps 4 are `inner`/`left` joins of groupbys over identical key sets, hence
one row per key carrying all metrics. -/
def trend_data (startM endM : String) (df : DelayFilter) (dim : Dimension)
    (sel : Option String) (vm : ViewMode) (rs : List Record) : List Row :=
  let f := trendFiltered startM endM df dim sel rs
  List.insertionSort (RLE dim vm) ((groupKeys dim vm f).map fun k => groupRow dim vm k f)

/-! ### Summary row and `df_with_avg` (lines 1110-1136) -/

/-- 到货年月 label of the summary row. -/
def AVG_LABEL : String := "筛选后平均值"

/-- `round(valid_vals.mean(), prec)` when the column has values, else `0`
(`avg_row[col] = 0` branch; the metric columns of `trend_data` are NaN-free,
so `dropna` keeps everything). -/
def avgOf (xs : List ℚ) (prec : ℕ) : ℚ :=
  if xs.length > 0 then roundQ prec (mean xs) else 0

/-- `avg_row` (lines 1117-1133): every column defaults to `"-"`, the month
column is relabelled, and each metric column becomes the rounded mean of the
column of `trend_data` (2 decimals, 准时率 4 decimals). -/
def avgRow (dim : Dimension) (vm : ViewMode) (td : List Row) : Row :=
  { month := AVG_LABEL,
    dimv := if dim = Dimension.overall then none else some "-",
    stat := if vm = ViewMode.detail then some "-" else none,
    cnt := avgOf (td.map Row.cnt) 2,
    rate := avgOf (td.map Row.rate) 4,
    absMean := avgOf (td.map Row.absMean) 2,
    diffMean := avgOf (td.map Row.diffMean) 2 }

/-- `df_with_avg` (lines 1111-1136): built only when `trend_data` is
non-empty; otherwise it stays the empty dataframe. -/
def df_with_avg (dim : Dimension) (vm : ViewMode) (td : List Row) : List Row :=
  if td.length > 0 then avgRow dim vm td :: td else []

/-! ### `calculate_monthly_diff` (lines 1140-1163) and the final result -/

/-- The four metric columns the loop at lines 1167-1169 runs
`calculate_monthly_diff` over (`avg_cols`; all four exist in the model's
fixed schema). -/
inductive Metric
  | cnt | rate | absM | diffM
deriving DecidableEq, Repr

/-- The metric column's value in a row. -/
def Metric.get : Metric → Row → ℚ
  | .cnt, r => r.cnt
  | .rate, r => r.rate
  | .absM, r => r.absMean
  | .diffM, r => r.diffMean

/-- Write the metric's 环比差值 column of a row. -/
def Metric.setD : Metric → Row → ℚ → Row
  | .cnt, r, d => { r with cntD := some d }
  | .rate, r, d => { r with rateD := some d }
  | .absM, r, d => { r with absD := some d }
  | .diffM, r, d => { r with diffD := some d }

/-- The `diff_group_cols` tuple of a row: the grouping columns other than the
month (`[c for c in group_cols if c not in [COL_DELIVERY_MONTH]]`). -/
def seriesKey (dim : Dimension) (vm : ViewMode) (r : Row) : List (Option String) :=
  (if dim = Dimension.overall then [] else [r.dimv]) ++
    (if vm = ViewMode.detail then [r.stat] else [])

/-- Lookup in the last-value-per-series accumulator (most recent first). -/
def alookup (k : List (Option String)) :
    List (List (Option String) × ℚ) → Option ℚ
  | [] => none
  | (k', v) :: rest => if k' = k then some v else alookup k rest

/-- `groupby(diff_group_cols)[base_col].diff()` followed by `fillna(0)`, over
an (already sorted) row list: each row's delta is its value minus the value
of the most recent earlier row with the same `diff_group_cols` tuple, and `0`
for the first row of each series (the NaN that `fillna(0)` replaces).  When
`diff_group_cols` is empty (整体趋势 + 汇总 mode) every row has the same
empty tuple, which is exactly the plain `.diff()` of the `else` branch at
line 1155. -/
def diffScan (key : Row → List (Option String)) (get : Row → ℚ)
    (setd : Row → ℚ → Row) :
    List Row → List (List (Option String) × ℚ) → List Row
  | [], _ => []
  | r :: rest, seen =>
      let d : ℚ :=
        match alookup (key r) seen with
        | some p => get r - p
        | none => 0
      setd r d :: diffScan key get setd rest ((key r, get r) :: seen)

/-- `calculate_monthly_diff` (lines 1140-1163) for one metric column: drop
the first row (the average row) when the frame has more than one row, sort
the rest by (年月数值, diff_group_cols), attach the per-series diff column,
and re-prepend the untouched first row (whose new column is NaN). -/
def calculate_monthly_diff (dim : Dimension) (vm : ViewMode) (m : Metric)
    (df : List Row) : List Row :=
  let dfData := if df.length > 1 then df.tail else df
  if dfData.length = 0 then df
  else
    let sorted := List.insertionSort (RLE dim vm) dfData
    let out := diffScan (seriesKey dim vm) m.get m.setD sorted []
    if df.length > 1 then df.take 1 ++ out else out

/-- The order the four 环比差值 columns are attached in (lines 1167-1169). -/
def METRICS : List Metric := [Metric.cnt, Metric.rate, Metric.absM, Metric.diffM]

/-- The whole trend aggregation: filter, aggregate, prepend the average row,
attach the four 环比差值 columns.  When the filtered set is empty the code
only emits the ⚠️ 筛选后无数据 message and every later step is skipped, so
the result is the empty frame. -/
def aggregate (startM endM : String) (df : DelayFilter) (dim : Dimension)
    (sel : Option String) (vm : ViewMode) (rs : List Record) : List Row :=
  METRICS.foldl (fun acc m => calculate_monthly_diff dim vm m acc)
    (df_with_avg dim vm (trend_data startM endM df dim sel vm rs))

/-! ### Current-month KPI baseline (lines 166-198) -/

/-- `month_options` (line 160): the distinct 到货年月 values, newest first. -/
def monthOptions (rs : List Record) : List String :=
  List.insertionSort (fun a b : String => strCmp b.toList a.toList ≠ Ordering.gt)
    ((rs.map Record.month).dedup)

/-- `df_prev` (lines 169-170): the previous month's rows, provided
`get_prev_month` produced a truthy string that is among the month options;
otherwise the empty frame. -/
def kpiPrev (rs : List Record) (selMonth : String) : List Record :=
  let pm := get_prev_month selMonth
  if pm ≠ "" ∧ pm ∈ monthOptions rs then rs.filter fun r => decide (r.month = pm)
  else []

/-- `prev_fba` (line 176): `len(df_prev) if not df_prev.empty else 0`. -/
def kpiPrevFba (rs : List Record) (selMonth : String) : ℕ :=
  (kpiPrev rs selMonth).length

/-! ### Filtered average of the raw-data tab (lines 1677-1681) -/

/-- `pd.to_numeric(df_filtered[col], errors='coerce').dropna()` then
`round(mean, 2) if len > 0 else 0.00`, for a column that still holds raw
cells (the stage-duration columns): non-numeric cells are NaN here and are
excluded from the mean; a wholly missing column yields `0`. -/
def rawAvgOptCol (xs : List (Option ℚ)) : ℚ :=
  if (xs.filterMap id).length > 0 then roundQ 2 (mean (xs.filterMap id)) else 0

/-- The same source line applied to one of the four columns `load_data`
already coerced and `fillna(0)`-ed: `to_numeric` is a no-op and `dropna`
drops nothing, so every cell — including the zeros that used to be
non-numeric strings — enters the mean. -/
def rawAvgQCol (xs : List ℚ) : ℚ :=
  if xs.length > 0 then roundQ 2 (mean xs) else 0

/-! ### Spec-side accessors -/

/-- The group key a result row carries in its key columns. -/
def rowKey (r : Row) : GroupKey := ⟨r.month, r.dimv, r.stat⟩

/-- Specification of "the value of the same series' chronologically preceding
row": among the rows before the current one (in the period-ascending sorted
order), the last one with the same `diff_group_cols` tuple, if any. -/
def prevSeriesVal (key : Row → List (Option String)) (get : Row → ℚ)
    (k : List (Option String)) (pre : List Row) : Option ℚ :=
  ((pre.filter fun r => decide (key r = k)).getLast?).map get

/-! ### Concrete fixtures used by witnesses and counterexamples -/

/-- A fully populated on-time record in 2024-01. -/
def xRec1 : Record :=
  { fba := some "A1", month := "2024-01", freight := some "F1",
    warehouse := some "W1", status := some "提前/准时",
    shipPickup := some 3, signDispatch := 10, absDiff := 2, diff := -2 }

/-- A record whose FBA号 cell is missing (NaN). -/
def xRecNoFba : Record :=
  { fba := none, month := "2024-01", freight := some "F1",
    warehouse := some "W1", status := some "延期",
    shipPickup := none, signDispatch := 0, absDiff := 1, diff := 1 }

/-- A record whose 到货年月 cell holds a malformed period string. -/
def xRecMal : Record :=
  { fba := some "A2", month := "garbage", freight := some "F1",
    warehouse := some "W1", status := some "延期",
    shipPickup := none, signDispatch := 0, absDiff := 0, diff := 0 }

/-- A record whose 提前/延期 cell is missing (NaN). -/
def xRecNoStatus : Record :=
  { fba := some "A3", month := "2024-01", freight := some "F1",
    warehouse := some "W1", status := none,
    shipPickup := none, signDispatch := 0, absDiff := 0, diff := 0 }

/-- 2024-02 record (group of one). -/
def xRec2 : Record :=
  { fba := some "B1", month := "2024-02", freight := some "F1",
    warehouse := some "W1", status := some "提前/准时",
    shipPickup := none, signDispatch := 4, absDiff := 1, diff := 1 }

/-- 2024-03 record (first of a group of two). -/
def xRec3a : Record :=
  { fba := some "C1", month := "2024-03", freight := some "F1",
    warehouse := some "W1", status := some "提前/准时",
    shipPickup := none, signDispatch := 4, absDiff := 1, diff := 1 }

/-- 2024-03 record (second of a group of two). -/
def xRec3b : Record :=
  { fba := some "C2", month := "2024-03", freight := some "F1",
    warehouse := some "W1", status := some "延期",
    shipPickup := none, signDispatch := 6, absDiff := 3, diff := 3 }

/-- A raw row with a valid 到货年月 and a numeric 签收-发货时间. -/
def xRawOK : RawRecord :=
  { fba := some "R1", month := some "2024-01", freight := some "F1",
    warehouse := some "W1", status := some "提前/准时",
    shipPickup := some 3, signDispatch := some 10, absDiff := some 2,
    diff := some (-2) }

/-- A raw row whose 到货年月 failed to parse (`NaT`). -/
def xRawNoMonth : RawRecord :=
  { fba := some "R2", month := none, freight := some "F2",
    warehouse := some "W2", status := some "延期",
    shipPickup := some 5, signDispatch := some 7, absDiff := some 1,
    diff := some 1 }

/-- A raw row whose 签收-发货时间 cell held a non-numeric string (NaN after
coercion). -/
def xRawBadNum : RawRecord :=
  { fba := some "R3", month := some "2024-01", freight := some "F1",
    warehouse := some "W1", status := some "延期",
    shipPickup := none, signDispatch := none, absDiff := some 1,
    diff := some 1 }

/-- Four records giving three month groups of sizes 1, 1, 2. -/
def xRecs5 : List Record := [xRec1, xRec2, xRec3a, xRec3b]

/-- The loaded form of `xRawBadNum`: the NaN 签收-发货时间 became `0`. -/
def xLoadedBad : Record :=
  { fba := some "R3", month := "2024-01", freight := some "F1",
    warehouse := some "W1", status := some "延期",
    shipPickup := none, signDispatch := 0, absDiff := 1, diff := 1 }

/-- A result row for 2024-01 (used as input to `calculate_monthly_diff`). -/
def xRow1 : Row :=
  { month := "2024-01", dimv := none, stat := none,
    cnt := 1, rate := 0, absMean := 2, diffMean := 2 }

/-- A result row for 2024-02. -/
def xRow2 : Row :=
  { month := "2024-02", dimv := none, stat := none,
    cnt := 3, rate := 1, absMean := 5, diffMean := 5 }

/-- An average row as `df_with_avg` produces it. -/
def xRowAvg : Row :=
  { month := AVG_LABEL, dimv := none, stat := none,
    cnt := 2, rate := 1, absMean := 4, diffMean := 4 }

/-- A `df_with_avg`-shaped frame whose data rows are out of order. -/
def xdf : List Row := [xRowAvg, xRow2, xRow1]

/-! ## Theorems

### Comparator facts: the sort orders are total preorders -/

theorem strCmp_swap (a : List Char) : ∀ b, (strCmp a b).swap = strCmp b a := by
  induction a with
  | nil => intro b; cases b <;> rfl
  | cons x xs ih =>
    intro b
    cases b with
    | nil => rfl
    | cons y ys =>
      by_cases h1 : x.toNat < y.toNat
      · have h2 : ¬ y.toNat < x.toNat := by omega
        simp [strCmp, h1, h2, Ordering.swap]
      · by_cases h2 : y.toNat < x.toNat
        · simp [strCmp, h1, h2, Ordering.swap]
        · simp [strCmp, h1, h2, ih ys]

theorem strCmp_le_trans (a : List Char) : ∀ b c, strCmp a b ≠ Ordering.gt →
    strCmp b c ≠ Ordering.gt → strCmp a c ≠ Ordering.gt := by
  induction a with
  | nil => intro b c _ _; cases c <;> simp [strCmp]
  | cons x xs ih =>
    intro b c hab hbc
    cases b with
    | nil => simp [strCmp] at hab
    | cons y ys =>
      cases c with
      | nil => simp [strCmp] at hbc
      | cons z zs =>
        simp only [strCmp] at hab hbc ⊢
        have Hab : x.toNat < y.toNat ∨ (x.toNat = y.toNat ∧ strCmp xs ys ≠ Ordering.gt) := by
          by_cases h1 : x.toNat < y.toNat
          · exact Or.inl h1
          · by_cases h2 : y.toNat < x.toNat
            · simp [h1, h2] at hab
            · exact Or.inr ⟨by omega, by simpa [h1, h2] using hab⟩
        have Hbc : y.toNat < z.toNat ∨ (y.toNat = z.toNat ∧ strCmp ys zs ≠ Ordering.gt) := by
          by_cases h1 : y.toNat < z.toNat
          · exact Or.inl h1
          · by_cases h2 : z.toNat < y.toNat
            · simp [h1, h2] at hbc
            · exact Or.inr ⟨by omega, by simpa [h1, h2] using hbc⟩
        rcases Hab with h | ⟨he, hrec⟩
        · rcases Hbc with h' | ⟨he', _⟩
          · simp [show x.toNat < z.toNat by omega]
          · simp [show x.toNat < z.toNat by omega]
        · rcases Hbc with h' | ⟨he', hrec'⟩
          · simp [show x.toNat < z.toNat by omega]
          · simp only [show ¬ x.toNat < z.toNat by omega, if_false,
              show ¬ z.toNat < x.toNat by omega]
            exact ih ys zs hrec hrec'

instance : Batteries.OrientedCmp strCmp := ⟨fun x y => strCmp_swap x y⟩

instance : Batteries.TransCmp strCmp :=
  { le_trans := fun {x y z} h1 h2 => strCmp_le_trans x y z h1 h2 }

theorem optCmp_swap (a b : Option String) : (optCmp a b).swap = optCmp b a := by
  cases a <;> cases b
  · rfl
  · rfl
  · rfl
  · exact strCmp_swap _ _

theorem optCmp_le_trans (a b c : Option String) (h1 : optCmp a b ≠ Ordering.gt)
    (h2 : optCmp b c ≠ Ordering.gt) : optCmp a c ≠ Ordering.gt := by
  cases a <;> cases b <;> cases c
  case none.none.none => simp [optCmp]
  case none.none.some => simp [optCmp]
  case none.some.none => exact absurd rfl h2
  case none.some.some => simp [optCmp]
  case some.none.none => exact absurd rfl h1
  case some.none.some => exact absurd rfl h1
  case some.some.none => exact absurd rfl h2
  case some.some.some => exact strCmp_le_trans _ _ _ h1 h2

instance : Batteries.OrientedCmp optCmp := ⟨fun x y => optCmp_swap x y⟩

instance : Batteries.TransCmp optCmp :=
  { le_trans := fun {x y z} h1 h2 => optCmp_le_trans x y z h1 h2 }

instance : Batteries.TransCmp keyCmp :=
  inferInstanceAs (Batteries.TransCmp (compareLex _ (compareLex _ _)))

instance (dim : Dimension) (vm : ViewMode) : Batteries.TransCmp (rowCmp dim vm) :=
  inferInstanceAs (Batteries.TransCmp (compareLex _ (compareLex _ _)))

theorem cmpLE_total {α : Type} (cmp : α → α → Ordering) [Batteries.OrientedCmp cmp]
    (a b : α) : cmp a b ≠ Ordering.gt ∨ cmp b a ≠ Ordering.gt := by
  by_cases h : cmp a b = Ordering.gt
  · right
    have : cmp b a = Ordering.lt := Batteries.OrientedCmp.cmp_eq_gt.mp h
    simp [this]
  · left; exact h

instance : IsTotal GroupKey KLE := ⟨fun a b => cmpLE_total keyCmp a b⟩

instance : IsTrans GroupKey KLE :=
  ⟨fun _ _ _ h1 h2 => Batteries.TransCmp.le_trans h1 h2⟩

instance (dim : Dimension) (vm : ViewMode) : IsTotal Row (RLE dim vm) :=
  ⟨fun a b => cmpLE_total (rowCmp dim vm) a b⟩

instance (dim : Dimension) (vm : ViewMode) : IsTrans Row (RLE dim vm) :=
  ⟨fun _ _ _ h1 h2 => Batteries.TransCmp.le_trans h1 h2⟩

/-! ### Digit and month-string lemmas -/

theorem digitChar_isDigit (d : ℕ) (h : d < 10) : (digitChar d).isDigit = true := by
  interval_cases d <;> decide

theorem digitChar_ne_dash (d : ℕ) (h : d < 10) : ¬ digitChar d = '-' := by
  interval_cases d <;> decide

theorem digitVal_digitChar (d : ℕ) (h : d < 10) : digitVal (digitChar d) = d := by
  interval_cases d <;> decide

theorem mem_yearDigits (y : ℕ) (c : Char) (hc : c ∈ yearDigits y) :
    ∃ d, d < 10 ∧ c = digitChar d := by
  have hb : ∀ k : ℕ, k % 10 < 10 := fun k => Nat.mod_lt _ (by norm_num)
  unfold yearDigits at hc
  split_ifs at hc
  · simp at hc
    exact ⟨y % 10, hb y, hc⟩
  · simp at hc
    rcases hc with rfl | rfl
    · exact ⟨y / 10 % 10, hb _, rfl⟩
    · exact ⟨y % 10, hb _, rfl⟩
  · simp at hc
    rcases hc with rfl | rfl | rfl
    · exact ⟨y / 100 % 10, hb _, rfl⟩
    · exact ⟨y / 10 % 10, hb _, rfl⟩
    · exact ⟨y % 10, hb _, rfl⟩
  · simp at hc
    rcases hc with rfl | rfl | rfl | rfl
    · exact ⟨y / 1000 % 10, hb _, rfl⟩
    · exact ⟨y / 100 % 10, hb _, rfl⟩
    · exact ⟨y / 10 % 10, hb _, rfl⟩
    · exact ⟨y % 10, hb _, rfl⟩

theorem digitsVal_from (acc : ℕ) (cs : List Char) :
    cs.foldl (fun a c => a * 10 + digitVal c) acc =
      acc * 10 ^ cs.length + digitsVal cs := by
  induction cs generalizing acc with
  | nil => simp [digitsVal]
  | cons c cs ih =>
    simp only [List.foldl_cons, List.length_cons, digitsVal]
    rw [ih (acc * 10 + digitVal c), ih (0 * 10 + digitVal c)]
    ring

theorem digitsVal_append (xs ys : List Char) :
    digitsVal (xs ++ ys) = digitsVal xs * 10 ^ ys.length + digitsVal ys := by
  rw [digitsVal, List.foldl_append]
  exact digitsVal_from _ ys

theorem digitsVal_yearDigits (y : ℕ) (hy : y < 10000) :
    digitsVal (yearDigits y) = y := by
  have h1 : y / 1000 % 10 < 10 := Nat.mod_lt _ (by norm_num)
  have h2 : y / 100 % 10 < 10 := Nat.mod_lt _ (by norm_num)
  have h3 : y / 10 % 10 < 10 := Nat.mod_lt _ (by norm_num)
  have h4 : y % 10 < 10 := Nat.mod_lt _ (by norm_num)
  unfold yearDigits
  split_ifs with ha hb hc
  · simp only [digitsVal, List.foldl, digitVal_digitChar _ h4]
    omega
  · simp only [digitsVal, List.foldl, digitVal_digitChar _ h3,
      digitVal_digitChar _ h4]
    omega
  · simp only [digitsVal, List.foldl, digitVal_digitChar _ h2,
      digitVal_digitChar _ h3, digitVal_digitChar _ h4]
    omega
  · simp only [digitsVal, List.foldl, digitVal_digitChar _ h1,
      digitVal_digitChar _ h2, digitVal_digitChar _ h3, digitVal_digitChar _ h4]
    omega

theorem month_to_num_formatYM (y m : ℕ) (hy : y < 10000) (hm : m < 100) :
    month_to_num (formatYM y m) = 100 * y + m := by
  have h5 : m / 10 % 10 < 10 := Nat.mod_lt _ (by norm_num)
  have h6 : m % 10 < 10 := Nat.mod_lt _ (by norm_num)
  have hfil : (formatYM y m).toList.filter (fun c => c ≠ '-') =
      yearDigits y ++ [digitChar (m / 10 % 10), digitChar (m % 10)] := by
    show (yearDigits y ++
        '-' :: [digitChar (m / 10 % 10), digitChar (m % 10)]).filter
        (fun c => c ≠ '-') = _
    rw [List.filter_append]
    congr 1
    · rw [List.filter_eq_self]
      intro c hc
      obtain ⟨d, hd, rfl⟩ := mem_yearDigits y c hc
      exact decide_eq_true (digitChar_ne_dash d hd)
    · simp only [List.filter_cons, decide_eq_true (digitChar_ne_dash _ h5),
        decide_eq_true (digitChar_ne_dash _ h6),
        show (decide ¬ '-' = '-') = false by decide, List.filter_nil]
      rfl
  have hall : (yearDigits y ++
      [digitChar (m / 10 % 10), digitChar (m % 10)]).all Char.isDigit = true := by
    rw [List.all_eq_true]
    intro c hc
    rcases List.mem_append.mp hc with h | h
    · obtain ⟨d, hd, rfl⟩ := mem_yearDigits y c h
      exact digitChar_isDigit d hd
    · simp at h
      rcases h with rfl | rfl
      · exact digitChar_isDigit _ h5
      · exact digitChar_isDigit _ h6
  have hne : yearDigits y ++ [digitChar (m / 10 % 10), digitChar (m % 10)] ≠ [] := by
    simp
  have hdv : digitsVal (yearDigits y ++
      [digitChar (m / 10 % 10), digitChar (m % 10)]) = 100 * y + m := by
    rw [digitsVal_append, digitsVal_yearDigits y hy]
    simp only [digitsVal, List.foldl, digitVal_digitChar _ h5,
      digitVal_digitChar _ h6, List.length_cons, List.length_nil]
    have hp : (10 : ℕ) ^ (0 + 1 + 1) = 100 := by norm_num
    rw [hp]
    omega
  simp only [month_to_num, hfil]
  rw [if_pos ⟨hne, hall⟩]
  exact hdv

theorem month_to_num_eq_zero (s : String)
    (h : ∃ c ∈ s.toList, ¬ c = '-' ∧ c.isDigit = false) : month_to_num s = 0 := by
  obtain ⟨c, hc, hcd, hcnd⟩ := h
  have hmem : c ∈ s.toList.filter (fun c => c ≠ '-') := by
    rw [List.mem_filter]
    exact ⟨hc, by simpa using hcd⟩
  have hall : (s.toList.filter (fun c => c ≠ '-')).all Char.isDigit = false := by
    rw [List.all_eq_false]
    exact ⟨c, hmem, by simp [hcnd]⟩
  have hno : ¬ ((s.toList.filter (fun c => c ≠ '-')) ≠ [] ∧
      (s.toList.filter (fun c => c ≠ '-')).all Char.isDigit = true) := by
    intro hcon
    rw [hall] at hcon
    exact Bool.false_ne_true hcon.2
  simp only [month_to_num, if_neg hno]

/-! ### C7 -/

/-- Claim C7, counterexample to "malformed periods are never dropped": a
record whose 到货年月 is the malformed string `"garbage"` converts to `0` and
is removed by the period filter for the ordinary bounds 2024-01..2024-12. -/
theorem C7_counterexample :
    month_to_num xRecMal.month = 0 ∧
    periodFilter "2024-01" "2024-12" [xRecMal] = [] := by decide

/-- Claim C7 (amended): the period filter keeps exactly the records whose
month, converted by `month_to_num`, lies within the converted bounds, both
ends included; on a well-formed `"YYYY-MM"` string the conversion yields the
integer `YYYYMM = 100*y + m`; and a record with a malformed month converts
to `0`, hence is *dropped* whenever the converted lower bound is positive
(it is kept, sorted to the front, only when the lower bound also converts
to `0`). -/
theorem C7_theorem (startM endM : String) (rs : List Record) :
    (∀ r : Record, r ∈ periodFilter startM endM rs ↔
      r ∈ rs ∧ month_to_num startM ≤ month_to_num r.month ∧
        month_to_num r.month ≤ month_to_num endM) ∧
    (∀ y m : ℕ, y < 10000 → m < 100 →
      month_to_num (formatYM y m) = 100 * y + m) ∧
    (∀ r : Record, (∃ c ∈ r.month.toList, ¬ c = '-' ∧ c.isDigit = false) →
      0 < month_to_num startM → r ∉ periodFilter startM endM rs) := by
  refine ⟨?_, fun y m hy hm => month_to_num_formatYM y m hy hm, ?_⟩
  · intro r
    simp [periodFilter, List.mem_filter, Bool.and_eq_true, decide_eq_true_eq,
      and_assoc]
  · intro r hbad hpos hmem
    have h0 : month_to_num r.month = 0 := month_to_num_eq_zero _ hbad
    have := (by
      simpa [periodFilter, List.mem_filter, Bool.and_eq_true,
        decide_eq_true_eq] using hmem : r ∈ rs ∧ _ ∧ _)
    omega

/-- Witness for C7 at concrete inputs. -/
theorem C7_witness :
    (xRec1 ∈ periodFilter "2024-01" "2024-02" [xRec1] ↔
      xRec1 ∈ [xRec1] ∧ month_to_num "2024-01" ≤ month_to_num xRec1.month ∧
        month_to_num xRec1.month ≤ month_to_num "2024-02") ∧
    month_to_num (formatYM 2024 1) = 100 * 2024 + 1 ∧
    xRecMal ∉ periodFilter "2024-01" "2024-12" [xRecMal] :=
  ⟨( C7_theorem "2024-01" "2024-02" [xRec1]).1 xRec1,
   ( C7_theorem "2024-01" "2024-02" [xRec1]).2.1 2024 1 (by norm_num) (by norm_num),
   ( C7_theorem "2024-01" "2024-12" [xRecMal]).2.2 xRecMal (by decide) (by decide)⟩

/-! ### C10 -/

theorem yearDigits_of_ge (y : ℕ) (hy1 : 1000 ≤ y) :
    yearDigits y = [digitChar (y / 1000 % 10), digitChar (y / 100 % 10),
      digitChar (y / 10 % 10), digitChar (y % 10)] := by
  unfold yearDigits
  rw [if_neg (by omega), if_neg (by omega), if_neg (by omega)]

theorem parseYM_formatYM (y m : ℕ) (hy1 : 1000 ≤ y) (hy : y ≤ 9999)
    (hm1 : 1 ≤ m) (hm : m ≤ 12) : parseYM (formatYM y m) = some (y, m) := by
  have h1 : y / 1000 % 10 < 10 := Nat.mod_lt _ (by norm_num)
  have h2 : y / 100 % 10 < 10 := Nat.mod_lt _ (by norm_num)
  have h3 : y / 10 % 10 < 10 := Nat.mod_lt _ (by norm_num)
  have h4 : y % 10 < 10 := Nat.mod_lt _ (by norm_num)
  have h5 : m / 10 % 10 < 10 := Nat.mod_lt _ (by norm_num)
  have h6 : m % 10 < 10 := Nat.mod_lt _ (by norm_num)
  have hneg : Char.isDigit '-' = false := rfl
  have hexp : (formatYM y m).toList =
      digitChar (y / 1000 % 10) :: digitChar (y / 100 % 10) ::
        digitChar (y / 10 % 10) :: digitChar (y % 10) :: '-' ::
        digitChar (m / 10 % 10) :: digitChar (m % 10) :: [] := by
    show yearDigits y ++ '-' :: [digitChar (m / 10 % 10), digitChar (m % 10)] = _
    rw [yearDigits_of_ge y hy1]
    rfl
  have htake : (formatYM y m).toList.takeWhile Char.isDigit =
      [digitChar (y / 1000 % 10), digitChar (y / 100 % 10),
       digitChar (y / 10 % 10), digitChar (y % 10)] := by
    rw [hexp]
    rw [List.takeWhile_cons_of_pos (digitChar_isDigit _ h1),
        List.takeWhile_cons_of_pos (digitChar_isDigit _ h2),
        List.takeWhile_cons_of_pos (digitChar_isDigit _ h3),
        List.takeWhile_cons_of_pos (digitChar_isDigit _ h4)]
    simp [List.takeWhile_cons, hneg]
  have hdrop : (formatYM y m).toList.dropWhile Char.isDigit =
      '-' :: digitChar (m / 10 % 10) :: digitChar (m % 10) :: [] := by
    rw [hexp]
    simp only [List.dropWhile_cons, digitChar_isDigit _ h1, digitChar_isDigit _ h2,
      digitChar_isDigit _ h3, digitChar_isDigit _ h4, hneg]
    simp
  have hys : digitsVal [digitChar (y / 1000 % 10), digitChar (y / 100 % 10),
      digitChar (y / 10 % 10), digitChar (y % 10)] = y := by
    simp only [digitsVal, List.foldl, digitVal_digitChar _ h1,
      digitVal_digitChar _ h2, digitVal_digitChar _ h3, digitVal_digitChar _ h4]
    omega
  have hms : digitsVal [digitChar (m / 10 % 10), digitChar (m % 10)] = m := by
    simp only [digitsVal, List.foldl, digitVal_digitChar _ h5,
      digitVal_digitChar _ h6]
    omega
  simp only [parseYM, htake, hdrop, List.length_cons, List.length_nil,
    List.all_cons, List.all_nil, digitChar_isDigit _ h5, digitChar_isDigit _ h6,
    hys, hms]
  norm_num [hm1, hm]
  omega

/-- Claim C10, counterexample: `"0001-01"` parses as a valid month
(January of year 1), but `get_prev_month` returns `""` rather than the
preceding calendar month `"0000-12"`, because the one-day subtraction
underflows `datetime.min` and the bare `except` swallows the
`OverflowError`. -/
theorem C10_counterexample :
    parseYM "0001-01" = some (1, 1) ∧ get_prev_month "0001-01" = "" ∧
    ¬ get_prev_month "0001-01" = "0000-12" := by decide

/-- Claim C10 (amended): for every `"YYYY-MM"` month with a four-digit year
(1000-9999), `get_prev_month` returns the immediately preceding calendar
month as `strftime` formats it — with the year unpadded, so `"1000-01"`
yields `"999-12"` (and the month rolling the year back in January).
`strptime`'s `%Y` demands exactly four year digits, so every other input —
a month written with 1-3 year digits like `"999-12"` as much as plain
garbage — is unparseable and yields `""` (the four-digit-padded `"0001-01"`
parses but yields `""` by the `datetime.min` underflow of the
counterexample); the function never raises.  The KPI cards' previous-month
count falls back to the `0` baseline whenever the computed previous month
is empty or absent from the month options. -/
theorem C10_theorem :
    (∀ y m : ℕ, 1000 ≤ y → y ≤ 9999 → 1 ≤ m → m ≤ 12 →
      get_prev_month (formatYM y m) =
        if m = 1 then formatYM (y - 1) 12 else formatYM y (m - 1)) ∧
    (∀ s : String, parseYM s = none → get_prev_month s = "") ∧
    (∀ rs : List Record, ∀ mo : String,
      (get_prev_month mo = "" ∨ get_prev_month mo ∉ monthOptions rs) →
      kpiPrevFba rs mo = 0) := by
  refine ⟨?_, ?_, ?_⟩
  · intro y m hy1 hy hm1 hm
    simp only [get_prev_month, parseYM_formatYM y m hy1 hy hm1 hm]
    by_cases h : m = 1
    · have hy' : ¬ y = 1 := by omega
      simp [h, hy']
    · simp [h]
  · intro s h
    simp [get_prev_month, h]
  · intro rs mo h
    rcases h with h | h
    · simp [kpiPrevFba, kpiPrev, h]
    · simp [kpiPrevFba, kpiPrev, h]

/-- Witness for C10 at concrete inputs (note `get_prev_month "999-12" = ""`:
a three-digit year does not match `%Y`). -/
theorem C10_witness :
    get_prev_month (formatYM 2024 1) =
      (if (1 : ℕ) = 1 then formatYM (2024 - 1) 12 else formatYM 2024 (1 - 1)) ∧
    get_prev_month (formatYM 1000 1) =
      (if (1 : ℕ) = 1 then formatYM (1000 - 1) 12 else formatYM 1000 (1 - 1)) ∧
    get_prev_month "bogus" = "" ∧
    get_prev_month "999-12" = "" ∧
    kpiPrevFba [] "2024-05" = 0 :=
  ⟨C10_theorem.1 2024 1 (by norm_num) (by norm_num) (by norm_num) (by norm_num),
   C10_theorem.1 1000 1 (by norm_num) (by norm_num) (by norm_num) (by norm_num),
   C10_theorem.2.1 "bogus" (by decide),
   C10_theorem.2.1 "999-12" (by decide),
   C10_theorem.2.2 [] "2024-05" (Or.inr (by decide))⟩

/-! ### C9 -/

/-- Claim C9, counterexample: a record whose 到货年月 is missing is dropped by
`load_data` with no trace in the output — the result is identical to loading
the input without that record, so no diagnostic count of skipped records is
surfaced anywhere; and a record whose 提前/延期 (status) is missing is *not*
excluded from aggregation in 汇总 mode: it forms a group and is counted, as
not on time. -/
theorem C9_counterexample :
    load_data [xRawOK, xRawNoMonth] = load_data [xRawOK] ∧
    (trend_data "2024-01" "2024-01" DelayFilter.all Dimension.overall none
        ViewMode.summary [xRecNoStatus]).map (fun r => (r.cnt, r.rate)) =
      [(1, 0)] := by
  constructor
  · simp [load_data, loadRecord, xRawOK, xRawNoMonth]
  · simp +decide [trend_data, trendFiltered, periodFilter, statusFilterF,
      dimFilterF, groupKeys, recordKey, groupRecords, groupRow, rateCalc, mean,
      List.insertionSort, List.orderedInsert, KLE, RLE, xRecNoStatus]

/-- Claim C9 (amended): records missing the period are excluded at load
silently — the output equals the output on the already-cleaned input, so the
exclusion is not observable from the result and no diagnostic count exists;
records missing the status are dropped (also silently) only by 明细-mode
grouping, while in 汇总 mode they stay in their month group. -/
theorem C9_theorem :
    (∀ raws : List RawRecord,
      load_data raws = load_data (raws.filter fun r => r.month.isSome)) ∧
    (∀ (r : Record) (dim : Dimension), r.status = none →
      recordKey dim ViewMode.detail r = none) ∧
    (∀ r : Record, recordKey Dimension.overall ViewMode.summary r =
      some ⟨r.month, none, none⟩) := by
  refine ⟨?_, ?_, ?_⟩
  · intro raws
    induction raws with
    | nil => rfl
    | cons r rest ih =>
      cases hr : r.month with
      | none => simp [load_data, List.filter_cons, loadRecord, hr] at ih ⊢; exact ih
      | some mo => simp [load_data, List.filter_cons, loadRecord, hr] at ih ⊢; exact ih
  · intro r dim h
    cases dim <;> cases hf : r.freight <;> cases hw : r.warehouse <;>
      simp [recordKey, dimValue, h, hf, hw]
  · intro r
    rfl

/-- Witness for C9 at concrete inputs. -/
theorem C9_witness :
    load_data [xRawNoMonth] =
      load_data ([xRawNoMonth].filter fun r => r.month.isSome) ∧
    recordKey Dimension.byFreight ViewMode.detail xRecNoStatus = none ∧
    recordKey Dimension.overall ViewMode.summary xRec1 =
      some ⟨xRec1.month, none, none⟩ :=
  ⟨C9_theorem.1 [xRawNoMonth], C9_theorem.2.1 xRecNoStatus Dimension.byFreight rfl,
   C9_theorem.2.2 xRec1⟩

/-! ### C8 -/

/-- Claim C8, counterexample to "never treated as 0": 签收-发货时间 is
coerced with `fillna(0)` at load, so a record whose cell was a non-numeric
string enters the filtered average as `0`: together with one record of value
`10` the displayed average is `5`, not the `10` that excluding the malformed
cell would give. -/
theorem C8_counterexample :
    rawAvgQCol ((load_data [xRawBadNum, xRawOK]).map Record.signDispatch) = 5 ∧
    rawAvgQCol ((load_data [xRawBadNum, xRawOK]).map Record.signDispatch) ≠ 10 := by
  have h : (load_data [xRawBadNum, xRawOK]).map Record.signDispatch
      = [0, 10] := by
    simp [load_data, loadRecord, xRawBadNum, xRawOK]
  rw [h]
  constructor
  · simp [rawAvgQCol, mean, roundQ, rhalfEven]
    norm_num
  · simp [rawAvgQCol, mean, roundQ, rhalfEven]
    norm_num

/-- Claim C8 (amended): on the stage-duration columns that `load_data` does
not touch, the filtered-average computation coerces non-numeric cells to
missing and drops them — a NaN cell never changes the average, and a wholly
missing column averages to `0`; but on the four columns `load_data` coerces,
the NaN was already replaced by `0` at load (`signDispatch` becomes
`getD 0`), so there a malformed cell does enter group means as `0`. -/
theorem C8_theorem :
    (∀ xs : List (Option ℚ), rawAvgOptCol (none :: xs) = rawAvgOptCol xs) ∧
    (∀ n : ℕ, rawAvgOptCol (List.replicate n none) = 0) ∧
    (∀ (r : RawRecord) (rec : Record), loadRecord r = some rec →
      rec.signDispatch = r.signDispatch.getD 0 ∧ rec.shipPickup = r.shipPickup) := by
  refine ⟨?_, ?_, ?_⟩
  · intro xs
    simp [rawAvgOptCol]
  · intro n
    have h : (List.replicate n (none : Option ℚ)).filterMap id = [] := by
      induction n with
      | zero => rfl
      | succ k ih => simp [List.replicate_succ, ih]
    simp [rawAvgOptCol, h]
  · intro r rec h
    cases hr : r.month with
    | none => simp [loadRecord, hr] at h
    | some mo =>
      simp [loadRecord, hr] at h
      rw [← h]
      exact ⟨rfl, rfl⟩

/-- Witness for C8 at concrete inputs. -/
theorem C8_witness :
    rawAvgOptCol (none :: [some (10 : ℚ)]) = rawAvgOptCol [some (10 : ℚ)] ∧
    rawAvgOptCol (List.replicate 3 (none : Option ℚ)) = 0 ∧
    (xLoadedBad.signDispatch = xRawBadNum.signDispatch.getD 0 ∧
     xLoadedBad.shipPickup = xRawBadNum.shipPickup) :=
  ⟨C8_theorem.1 [some 10], C8_theorem.2.1 3,
   C8_theorem.2.2 xRawBadNum xLoadedBad rfl⟩

/-! ### C6 -/

theorem statusFilterF_nil (df : DelayFilter) : statusFilterF df [] = [] := by
  cases df <;> rfl

theorem dimFilterF_nil (dim : Dimension) (sel : Option String) :
    dimFilterF dim sel [] = [] := by
  cases sel <;> cases dim <;> rfl

theorem calculate_monthly_diff_nil (dim : Dimension) (vm : ViewMode) (m : Metric) :
    calculate_monthly_diff dim vm m [] = [] := rfl

/-- Claim C6, counterexample to "returns exactly one row": with
`period_start` 2024-03 after `period_end` 2024-01 the filtered set is empty,
and the code then skips every aggregation step, emitting the ⚠️ 筛选后无数据
message and an *empty* result — zero rows, not one all-zero SummaryRow. -/
theorem C6_counterexample :
    aggregate "2024-03" "2024-01" DelayFilter.all Dimension.overall none
      ViewMode.summary [xRec2] = [] ∧
    (aggregate "2024-03" "2024-01" DelayFilter.all Dimension.overall none
      ViewMode.summary [xRec2]).length ≠ 1 := by decide

/-- Claim C6 (amended): whenever the record set is empty after filtering —
in particular whenever `period_start` converts above `period_end` — the
aggregation produces the empty result (no rows at all, hence also no summary
row) and, being a total function, never raises. -/
theorem C6_theorem (startM endM : String) (dfil : DelayFilter) (dim : Dimension)
    (sel : Option String) (vm : ViewMode) (rs : List Record) :
    (trendFiltered startM endM dfil dim sel rs = [] →
      aggregate startM endM dfil dim sel vm rs = []) ∧
    (month_to_num endM < month_to_num startM →
      aggregate startM endM dfil dim sel vm rs = []) := by
  have hagg : trendFiltered startM endM dfil dim sel rs = [] →
      aggregate startM endM dfil dim sel vm rs = [] := by
    intro h
    have htd : trend_data startM endM dfil dim sel vm rs = [] := by
      simp [trend_data, h, groupKeys, List.insertionSort]
    simp [aggregate, df_with_avg, htd, METRICS, List.foldl,
      calculate_monthly_diff_nil]
  refine ⟨hagg, fun hlt => hagg ?_⟩
  have hp : periodFilter startM endM rs = [] := by
    rw [periodFilter, List.filter_eq_nil_iff]
    intro r hr
    simp only [Bool.and_eq_true, decide_eq_true_eq, not_and]
    intro h1 h2
    omega
  simp [trendFiltered, hp, statusFilterF_nil, dimFilterF_nil]

/-- Witness for C6 at a concrete input. -/
theorem C6_witness :
    aggregate "2024-03" "2024-01" DelayFilter.delayOnly Dimension.overall none
      ViewMode.summary [xRec1] = [] :=
  ( C6_theorem "2024-03" "2024-01" DelayFilter.delayOnly Dimension.overall none
    ViewMode.summary [xRec1]).2 (by decide)

/-! ### C2 -/

theorem mem_trend_data {startM endM : String} {dfil : DelayFilter}
    {dim : Dimension} {sel : Option String} {vm : ViewMode} {rs : List Record}
    {row : Row} :
    row ∈ trend_data startM endM dfil dim sel vm rs ↔
      ∃ k ∈ groupKeys dim vm (trendFiltered startM endM dfil dim sel rs),
        row = groupRow dim vm k (trendFiltered startM endM dfil dim sel rs) := by
  unfold trend_data
  rw [(List.perm_insertionSort _ _).mem_iff, List.mem_map]
  constructor
  · rintro ⟨k, hk, rfl⟩
    exact ⟨k, hk, rfl⟩
  · rintro ⟨k, hk, rfl⟩
    exact ⟨k, hk, rfl⟩

theorem rowKey_groupRow (dim : Dimension) (vm : ViewMode) (k : GroupKey)
    (rs : List Record) : rowKey (groupRow dim vm k rs) = k := rfl

theorem rateCalc_bounds (a b : ℕ) (h : a ≤ b) :
    0 ≤ rateCalc a b ∧ rateCalc a b ≤ 1 := by
  unfold rateCalc
  by_cases hb : b = 0
  · subst hb
    have : a = 0 := Nat.le_zero.mp h
    subst this
    norm_num
  · have hbpos : 0 < (b : ℚ) := by
      exact_mod_cast Nat.pos_of_ne_zero hb
    rw [if_neg hb]
    constructor
    · exact div_nonneg (by positivity) hbpos.le
    · rw [div_le_one hbpos]
      exact_mod_cast h

/-- Claim C2 (confirmed): every emitted group's 准时率 is the 提前/准时 count
over the group size guarded by `replace(0, 1)`, and lies in `[0, 1]`; and an
empty group reaching the rate calculation gets the defensive value
`0/1 = 0`, never a division by zero. -/
theorem C2_theorem (startM endM : String) (dfil : DelayFilter) (dim : Dimension)
    (sel : Option String) (vm : ViewMode) (rs : List Record) :
    (∀ row ∈ trend_data startM endM dfil dim sel vm rs,
      row.rate = rateCalc
        ((groupRecords dim vm (rowKey row)
            (trendFiltered startM endM dfil dim sel rs)).countP
          (fun r => decide (r.status = some ON_TIME)))
        (groupRecords dim vm (rowKey row)
            (trendFiltered startM endM dfil dim sel rs)).length ∧
      0 ≤ row.rate ∧ row.rate ≤ 1) ∧
    rateCalc 0 0 = 0 := by
  constructor
  · intro row hrow
    obtain ⟨k, hk, rfl⟩ := mem_trend_data.mp hrow
    rw [rowKey_groupRow]
    refine ⟨rfl, ?_⟩
    exact rateCalc_bounds _ _ (List.countP_le_length _)
  · norm_num [rateCalc]

/-- Witness for C2 at a concrete input. -/
theorem C2_witness :
    (0 ≤ (groupRow Dimension.overall ViewMode.summary ⟨"2024-01", none, none⟩
        (trendFiltered "2024-01" "2024-01" DelayFilter.all Dimension.overall
          none [xRec1])).rate ∧
      (groupRow Dimension.overall ViewMode.summary ⟨"2024-01", none, none⟩
        (trendFiltered "2024-01" "2024-01" DelayFilter.all Dimension.overall
          none [xRec1])).rate ≤ 1) ∧
    rateCalc 0 0 = 0 := by
  have h := C2_theorem "2024-01" "2024-01" DelayFilter.all Dimension.overall
    none ViewMode.summary [xRec1]
  have hm : groupRow Dimension.overall ViewMode.summary ⟨"2024-01", none, none⟩
      (trendFiltered "2024-01" "2024-01" DelayFilter.all Dimension.overall
        none [xRec1]) ∈
      trend_data "2024-01" "2024-01" DelayFilter.all Dimension.overall none
        ViewMode.summary [xRec1] := by
    simp +decide [trend_data, trendFiltered, periodFilter, statusFilterF,
      dimFilterF, groupKeys, recordKey, List.insertionSort, List.orderedInsert,
      KLE, RLE, xRec1]
  exact ⟨(h.1 _ hm).2, h.2⟩

/-! ### C5 -/

/-- Claim C5, counterexample to "equals the arithmetic mean": with month
groups of sizes 1, 1 and 2 the mean group count is `4/3`, but the summary
row stores `round(mean, 2) = 1.33 = 133/100`, which differs from the exact
arithmetic mean (and from the grand total 4). -/
theorem C5_counterexample :
    (avgRow Dimension.overall ViewMode.summary
        (trend_data "2024-01" "2024-03" DelayFilter.all Dimension.overall none
          ViewMode.summary xRecs5)).cnt ≠
      mean ((trend_data "2024-01" "2024-03" DelayFilter.all Dimension.overall
          none ViewMode.summary xRecs5).map Row.cnt) ∧
    (avgRow Dimension.overall ViewMode.summary
        (trend_data "2024-01" "2024-03" DelayFilter.all Dimension.overall none
          ViewMode.summary xRecs5)).cnt = 133 / 100 ∧
    mean ((trend_data "2024-01" "2024-03" DelayFilter.all Dimension.overall
        none ViewMode.summary xRecs5).map Row.cnt) = 4 / 3 := by
  have htd : (trend_data "2024-01" "2024-03" DelayFilter.all Dimension.overall
      none ViewMode.summary xRecs5).map Row.cnt = [1, 1, 2] := by
    simp +decide [trend_data, trendFiltered, periodFilter, statusFilterF,
      dimFilterF, groupKeys, recordKey, groupRecords, groupRow, rateCalc, mean,
      List.insertionSort, List.orderedInsert, KLE, RLE, xRecs5, xRec1, xRec2,
      xRec3a, xRec3b]
  have hav : (avgRow Dimension.overall ViewMode.summary
      (trend_data "2024-01" "2024-03" DelayFilter.all Dimension.overall none
        ViewMode.summary xRecs5)).cnt = avgOf [1, 1, 2] 2 := by
    show avgOf ((trend_data "2024-01" "2024-03" DelayFilter.all Dimension.overall
        none ViewMode.summary xRecs5).map Row.cnt) 2 = _
    rw [htd]
  have hmean : mean [(1 : ℚ), 1, 2] = 4 / 3 := by
    norm_num [mean]
  have havg : avgOf [(1 : ℚ), 1, 2] 2 = 133 / 100 := by
    rw [avgOf, if_pos (by norm_num), hmean, roundQ, rhalfEven]
    norm_num
  rw [htd, hav, havg, hmean]
  norm_num

/-- Claim C5 (amended): the summary row's 订单个数 is the arithmetic mean of
the per-group record counts *rounded to 2 decimals* — still a mean of group
counts, not the total record count — and likewise each other summary metric
is the rounded mean of that metric over the emitted groups (4 decimals for
准时率, 2 for the rest); the summary row is the first row of
`df_with_avg`. -/
theorem C5_theorem (dim : Dimension) (vm : ViewMode) (td : List Row)
    (h : td ≠ []) :
    (df_with_avg dim vm td).head? = some (avgRow dim vm td) ∧
    (avgRow dim vm td).cnt = roundQ 2 (mean (td.map Row.cnt)) ∧
    (avgRow dim vm td).rate = roundQ 4 (mean (td.map Row.rate)) ∧
    (avgRow dim vm td).absMean = roundQ 2 (mean (td.map Row.absMean)) ∧
    (avgRow dim vm td).diffMean = roundQ 2 (mean (td.map Row.diffMean)) := by
  have hl : 0 < td.length := List.length_pos.mpr h
  refine ⟨?_, ?_, ?_, ?_, ?_⟩
  · rw [df_with_avg, if_pos hl]
    rfl
  · show avgOf (td.map Row.cnt) 2 = _
    rw [avgOf, if_pos (by simpa using hl)]
  · show avgOf (td.map Row.rate) 4 = _
    rw [avgOf, if_pos (by simpa using hl)]
  · show avgOf (td.map Row.absMean) 2 = _
    rw [avgOf, if_pos (by simpa using hl)]
  · show avgOf (td.map Row.diffMean) 2 = _
    rw [avgOf, if_pos (by simpa using hl)]

/-- Witness for C5 at a concrete input. -/
theorem C5_witness :
    (df_with_avg Dimension.overall ViewMode.summary [xRow1]).head? =
      some (avgRow Dimension.overall ViewMode.summary [xRow1]) ∧
    (avgRow Dimension.overall ViewMode.summary [xRow1]).cnt =
      roundQ 2 (mean ([xRow1].map Row.cnt)) ∧
    (avgRow Dimension.overall ViewMode.summary [xRow1]).rate =
      roundQ 4 (mean ([xRow1].map Row.rate)) ∧
    (avgRow Dimension.overall ViewMode.summary [xRow1]).absMean =
      roundQ 2 (mean ([xRow1].map Row.absMean)) ∧
    (avgRow Dimension.overall ViewMode.summary [xRow1]).diffMean =
      roundQ 2 (mean ([xRow1].map Row.diffMean)) :=
  C5_theorem Dimension.overall ViewMode.summary [xRow1] (by decide)

/-! ### C4 -/

theorem diffScan_length (key : Row → List (Option String)) (get : Row → ℚ)
    (setd : Row → ℚ → Row) (l : List Row)
    (seen : List (List (Option String) × ℚ)) :
    (diffScan key get setd l seen).length = l.length := by
  induction l generalizing seen with
  | nil => rfl
  | cons r rest ih => simp [diffScan, ih]

theorem calculate_monthly_diff_length (dim : Dimension) (vm : ViewMode)
    (m : Metric) (df : List Row) :
    (calculate_monthly_diff dim vm m df).length = df.length := by
  cases df with
  | nil => rfl
  | cons a t =>
    cases t with
    | nil =>
      simp [calculate_monthly_diff, diffScan_length, List.length_insertionSort,
        List.orderedInsert_length]
    | cons b t' =>
      have hgt : (a :: b :: t').length > 1 := by simp
      simp [calculate_monthly_diff, hgt, diffScan_length,
        List.length_insertionSort, List.orderedInsert_length]

theorem calculate_monthly_diff_head (dim : Dimension) (vm : ViewMode)
    (m : Metric) (df : List Row) (h : 1 < df.length) :
    (calculate_monthly_diff dim vm m df).head? = df.head? := by
  cases df with
  | nil => simp at h
  | cons a t =>
    cases t with
    | nil => simp at h
    | cons b t' =>
      have hgt : (a :: b :: t').length > 1 := by simp
      simp [calculate_monthly_diff, hgt]

theorem foldl_cmd_props (dim : Dimension) (vm : ViewMode) (ms : List Metric)
    (df : List Row) (h : 1 < df.length) :
    (ms.foldl (fun acc m => calculate_monthly_diff dim vm m acc) df).length
      = df.length ∧
    (ms.foldl (fun acc m => calculate_monthly_diff dim vm m acc) df).head?
      = df.head? := by
  induction ms generalizing df with
  | nil => exact ⟨rfl, rfl⟩
  | cons m ms ih =>
    simp only [List.foldl_cons]
    have h1 := calculate_monthly_diff_length dim vm m df
    have h2 := calculate_monthly_diff_head dim vm m df h
    have h3 := ih (calculate_monthly_diff dim vm m df) (by omega)
    exact ⟨h3.1.trans h1, h3.2.trans h2⟩

/-- Claim C4 (confirmed): on a non-empty aggregation the first output row is
always the 筛选后平均值 summary row, and no 环比差值 is ever attached to it —
`calculate_monthly_diff` excludes row 0 via `iloc[1:]` and re-prepends it,
leaving all four of its delta columns NaN (`none`). -/
theorem C4_theorem (startM endM : String) (dfil : DelayFilter) (dim : Dimension)
    (sel : Option String) (vm : ViewMode) (rs : List Record)
    (h : trend_data startM endM dfil dim sel vm rs ≠ []) :
    (aggregate startM endM dfil dim sel vm rs).head? =
      some (avgRow dim vm (trend_data startM endM dfil dim sel vm rs)) ∧
    (avgRow dim vm (trend_data startM endM dfil dim sel vm rs)).month
      = AVG_LABEL ∧
    (avgRow dim vm (trend_data startM endM dfil dim sel vm rs)).cntD = none ∧
    (avgRow dim vm (trend_data startM endM dfil dim sel vm rs)).rateD = none ∧
    (avgRow dim vm (trend_data startM endM dfil dim sel vm rs)).absD = none ∧
    (avgRow dim vm (trend_data startM endM dfil dim sel vm rs)).diffD = none := by
  refine ⟨?_, rfl, rfl, rfl, rfl, rfl⟩
  have hpos : 0 < (trend_data startM endM dfil dim sel vm rs).length :=
    List.length_pos.mpr h
  have hdwa : df_with_avg dim vm (trend_data startM endM dfil dim sel vm rs) =
      avgRow dim vm (trend_data startM endM dfil dim sel vm rs) ::
        trend_data startM endM dfil dim sel vm rs := by
    rw [df_with_avg, if_pos hpos]
  have hlen : 1 < (df_with_avg dim vm
      (trend_data startM endM dfil dim sel vm rs)).length := by
    rw [hdwa]
    simp
    omega
  unfold aggregate
  rw [(foldl_cmd_props dim vm METRICS _ hlen).2, hdwa]
  rfl

/-- Witness for C4 at a concrete input. -/
theorem C4_witness :
    (aggregate "2024-01" "2024-01" DelayFilter.all Dimension.overall none
        ViewMode.summary [xRec1]).head? =
      some (avgRow Dimension.overall ViewMode.summary
        (trend_data "2024-01" "2024-01" DelayFilter.all Dimension.overall none
          ViewMode.summary [xRec1])) ∧
    (avgRow Dimension.overall ViewMode.summary
        (trend_data "2024-01" "2024-01" DelayFilter.all Dimension.overall none
          ViewMode.summary [xRec1])).month = AVG_LABEL ∧
    (avgRow Dimension.overall ViewMode.summary
        (trend_data "2024-01" "2024-01" DelayFilter.all Dimension.overall none
          ViewMode.summary [xRec1])).cntD = none ∧
    (avgRow Dimension.overall ViewMode.summary
        (trend_data "2024-01" "2024-01" DelayFilter.all Dimension.overall none
          ViewMode.summary [xRec1])).rateD = none ∧
    (avgRow Dimension.overall ViewMode.summary
        (trend_data "2024-01" "2024-01" DelayFilter.all Dimension.overall none
          ViewMode.summary [xRec1])).absD = none ∧
    (avgRow Dimension.overall ViewMode.summary
        (trend_data "2024-01" "2024-01" DelayFilter.all Dimension.overall none
          ViewMode.summary [xRec1])).diffD = none :=
  C4_theorem "2024-01" "2024-01" DelayFilter.all Dimension.overall none
    ViewMode.summary [xRec1] (by decide)

/-! ### C1 -/

theorem mem_groupKeys {dim : Dimension} {vm : ViewMode} {rs : List Record}
    {k : GroupKey} :
    k ∈ groupKeys dim vm rs ↔ k ∈ rs.filterMap (recordKey dim vm) := by
  unfold groupKeys
  rw [(List.perm_insertionSort _ _).mem_iff, List.mem_dedup]

theorem nodup_groupKeys (dim : Dimension) (vm : ViewMode) (rs : List Record) :
    (groupKeys dim vm rs).Nodup :=
  ((List.perm_insertionSort KLE _).nodup_iff).mpr (List.nodup_dedup _)

theorem length_groupRecords (dim : Dimension) (vm : ViewMode) (k : GroupKey)
    (rs : List Record) :
    (groupRecords dim vm k rs).length =
      (rs.filterMap (recordKey dim vm)).count k := by
  induction rs with
  | nil => rfl
  | cons r rest ih =>
    by_cases h : recordKey dim vm r = some k
    · simp [groupRecords, List.filter_cons, h, List.filterMap_cons,
        List.count_cons, ih]
      rw [← ih]
      rfl
    · cases hr : recordKey dim vm r with
      | none =>
        simpa [groupRecords, List.filter_cons, h, List.filterMap_cons, hr]
          using ih
      | some k' =>
        have hk : ¬ k' = k := fun e => h (by rw [hr, e])
        simpa [groupRecords, List.filter_cons, h, List.filterMap_cons, hr,
          List.count_cons, hk] using ih

/-- Claim C1, counterexample to "record count equals the number of matching
filtered records": 订单个数 is pandas `count()` of the FBA号 column, which
only counts non-null cells; a group consisting of one record with a missing
FBA号 is emitted with 订单个数 `0` although one filtered record matches its
key. -/
theorem C1_counterexample :
    (trend_data "2024-01" "2024-01" DelayFilter.all Dimension.overall none
        ViewMode.summary [xRecNoFba]).map Row.cnt = [0] ∧
    ((trendFiltered "2024-01" "2024-01" DelayFilter.all Dimension.overall none
        [xRecNoFba]).filter fun r =>
        decide (recordKey Dimension.overall ViewMode.summary r =
          some ⟨"2024-01", none, none⟩)).length = 1 ∧
    (trend_data "2024-01" "2024-01" DelayFilter.all Dimension.overall none
        ViewMode.summary [xRecNoFba]).map Row.cnt ≠ [(1 : ℚ)] := by decide

/-- Claim C1 (amended): each emitted group's 订单个数 equals the number of
matching filtered records *whose FBA号 is present*; every emitted group has
at least one matching record (no zero-record group is emitted); the emitted
keys are exactly (and without duplicates) the keys realized by filtered
records whose grouping cells are all present; and the group sizes sum to the
number of filtered records with all grouping cells present — those records
are partitioned, while records with a NaN grouping cell are silently
omitted. -/
theorem C1_theorem (startM endM : String) (dfil : DelayFilter) (dim : Dimension)
    (sel : Option String) (vm : ViewMode) (rs : List Record) :
    (∀ row ∈ trend_data startM endM dfil dim sel vm rs,
      row.cnt = ((groupRecords dim vm (rowKey row)
          (trendFiltered startM endM dfil dim sel rs)).countP
        (fun r => r.fba.isSome) : ℕ)) ∧
    (∀ row ∈ trend_data startM endM dfil dim sel vm rs,
      1 ≤ (groupRecords dim vm (rowKey row)
          (trendFiltered startM endM dfil dim sel rs)).length) ∧
    ((trend_data startM endM dfil dim sel vm rs).map rowKey).Nodup ∧
    (∀ k : GroupKey, k ∈ (trend_data startM endM dfil dim sel vm rs).map rowKey ↔
      k ∈ (trendFiltered startM endM dfil dim sel rs).filterMap
        (recordKey dim vm)) ∧
    ((trend_data startM endM dfil dim sel vm rs).map fun row =>
        (groupRecords dim vm (rowKey row)
          (trendFiltered startM endM dfil dim sel rs)).length).sum =
      (trendFiltered startM endM dfil dim sel rs).countP
        (fun r => (recordKey dim vm r).isSome) := by
  have hperm : List.Perm (trend_data startM endM dfil dim sel vm rs)
      ((groupKeys dim vm (trendFiltered startM endM dfil dim sel rs)).map
        (fun k => groupRow dim vm k (trendFiltered startM endM dfil dim sel rs))) :=
    List.perm_insertionSort _ _
  have hmapkey : ∀ ks : List GroupKey,
      (ks.map fun k => groupRow dim vm k
        (trendFiltered startM endM dfil dim sel rs)).map rowKey = ks := by
    intro ks
    rw [List.map_map]
    have hc : (rowKey ∘ fun k => groupRow dim vm k
        (trendFiltered startM endM dfil dim sel rs)) = id := by
      funext k
      exact rowKey_groupRow dim vm k _
    rw [hc, List.map_id]
  refine ⟨?_, ?_, ?_, ?_, ?_⟩
  · intro row hrow
    obtain ⟨k, hk, rfl⟩ := mem_trend_data.mp hrow
    rw [rowKey_groupRow]
    rfl
  · intro row hrow
    obtain ⟨k, hk, rfl⟩ := mem_trend_data.mp hrow
    rw [rowKey_groupRow]
    obtain ⟨r, hr, hrk⟩ := List.mem_filterMap.mp (mem_groupKeys.mp hk)
    have : r ∈ groupRecords dim vm k
        (trendFiltered startM endM dfil dim sel rs) :=
      List.mem_filter.mpr ⟨hr, by simp [hrk]⟩
    have hne : groupRecords dim vm k
        (trendFiltered startM endM dfil dim sel rs) ≠ [] :=
      List.ne_nil_of_mem this
    have := List.length_pos.mpr hne
    omega
  · have h1 := hperm.map rowKey
    rw [hmapkey] at h1
    exact (h1.nodup_iff).mpr
      (nodup_groupKeys dim vm (trendFiltered startM endM dfil dim sel rs))
  · intro k
    have h1 := hperm.map rowKey
    rw [hmapkey] at h1
    rw [h1.mem_iff]
    exact mem_groupKeys
  · have h1 := hperm.map fun row =>
      (groupRecords dim vm (rowKey row)
        (trendFiltered startM endM dfil dim sel rs)).length
    rw [h1.sum_eq]
    have h2 : ((groupKeys dim vm (trendFiltered startM endM dfil dim sel rs)).map
        fun k => (groupRecords dim vm k
          (trendFiltered startM endM dfil dim sel rs)).length).sum =
        (((trendFiltered startM endM dfil dim sel rs).filterMap
            (recordKey dim vm)).dedup.map
          fun k => (groupRecords dim vm k
            (trendFiltered startM endM dfil dim sel rs)).length).sum := by
      exact ((List.perm_insertionSort KLE _).map _).sum_eq
    have h3 : ∀ ks1 : List GroupKey, (ks1.map fun k => groupRow dim vm k
        (trendFiltered startM endM dfil dim sel rs)).map
          (fun row => (groupRecords dim vm (rowKey row)
            (trendFiltered startM endM dfil dim sel rs)).length) =
        ks1.map fun k => (groupRecords dim vm k
          (trendFiltered startM endM dfil dim sel rs)).length := by
      intro ks1
      rw [List.map_map]
      apply List.map_congr_left
      intro k _
      simp [rowKey_groupRow]
    calc ((groupKeys dim vm (trendFiltered startM endM dfil dim sel rs)).map
            (fun k => groupRow dim vm k
              (trendFiltered startM endM dfil dim sel rs)) |>.map
          fun row => (groupRecords dim vm (rowKey row)
            (trendFiltered startM endM dfil dim sel rs)).length).sum
        = ((groupKeys dim vm (trendFiltered startM endM dfil dim sel rs)).map
            fun k => (groupRecords dim vm k
              (trendFiltered startM endM dfil dim sel rs)).length).sum := by
          rw [h3]
      _ = (((trendFiltered startM endM dfil dim sel rs).filterMap
            (recordKey dim vm)).dedup.map
          fun k => (groupRecords dim vm k
            (trendFiltered startM endM dfil dim sel rs)).length).sum := h2
      _ = (((trendFiltered startM endM dfil dim sel rs).filterMap
            (recordKey dim vm)).dedup.map
          fun k => ((trendFiltered startM endM dfil dim sel rs).filterMap
            (recordKey dim vm)).count k).sum := by
          apply congrArg
          apply List.map_congr_left
          intro k _
          exact length_groupRecords dim vm k _
      _ = ((trendFiltered startM endM dfil dim sel rs).filterMap
            (recordKey dim vm)).length :=
          List.sum_map_count_dedup_eq_length _
      _ = (trendFiltered startM endM dfil dim sel rs).countP
            (fun r => (recordKey dim vm r).isSome) :=
          List.length_filterMap_eq_countP _ _

/-- Witness for C1 at a concrete input. -/
theorem C1_witness :
    ((trend_data "2024-01" "2024-02" DelayFilter.all Dimension.overall none
        ViewMode.summary [xRec1, xRec2]).map rowKey).Nodup ∧
    ((trend_data "2024-01" "2024-02" DelayFilter.all Dimension.overall none
        ViewMode.summary [xRec1, xRec2]).map fun row =>
        (groupRecords Dimension.overall ViewMode.summary (rowKey row)
          (trendFiltered "2024-01" "2024-02" DelayFilter.all Dimension.overall
            none [xRec1, xRec2])).length).sum =
      (trendFiltered "2024-01" "2024-02" DelayFilter.all Dimension.overall none
        [xRec1, xRec2]).countP
        (fun r => (recordKey Dimension.overall ViewMode.summary r).isSome) ∧
    (groupRow Dimension.overall ViewMode.summary ⟨"2024-01", none, none⟩
        (trendFiltered "2024-01" "2024-02" DelayFilter.all Dimension.overall
          none [xRec1, xRec2])).cnt =
      ((groupRecords Dimension.overall ViewMode.summary
          (rowKey (groupRow Dimension.overall ViewMode.summary
            ⟨"2024-01", none, none⟩
            (trendFiltered "2024-01" "2024-02" DelayFilter.all Dimension.overall
              none [xRec1, xRec2])))
          (trendFiltered "2024-01" "2024-02" DelayFilter.all Dimension.overall
            none [xRec1, xRec2])).countP (fun r => r.fba.isSome) : ℕ) := by
  have h := C1_theorem "2024-01" "2024-02" DelayFilter.all Dimension.overall
    none ViewMode.summary [xRec1, xRec2]
  have hm : groupRow Dimension.overall ViewMode.summary ⟨"2024-01", none, none⟩
      (trendFiltered "2024-01" "2024-02" DelayFilter.all Dimension.overall none
        [xRec1, xRec2]) ∈
      trend_data "2024-01" "2024-02" DelayFilter.all Dimension.overall none
        ViewMode.summary [xRec1, xRec2] := by
    simp +decide [trend_data, trendFiltered, periodFilter, statusFilterF,
      dimFilterF, groupKeys, recordKey, List.insertionSort, List.orderedInsert,
      KLE, RLE, xRec1, xRec2]
  exact ⟨h.2.2.1, h.2.2.2.2, h.1 _ hm⟩

/-! ### C3 -/

theorem alookup_seen (key : Row → List (Option String)) (get : Row → ℚ)
    (k : List (Option String)) (pre : List Row) :
    alookup k ((pre.map fun x => (key x, get x)).reverse) =
      prevSeriesVal key get k pre := by
  induction pre using List.reverseRecOn with
  | nil => rfl
  | append_singleton pre x ih =>
    have hrev : ((pre ++ [x]).map fun r0 => (key r0, get r0)).reverse
        = (key x, get x) :: (pre.map fun r0 => (key r0, get r0)).reverse := by
      simp
    rw [hrev]
    simp only [alookup]
    by_cases h : key x = k
    · rw [if_pos h]
      simp [prevSeriesVal, List.filter_append, h, List.getLast?_concat]
    · rw [if_neg h, ih]
      simp [prevSeriesVal, List.filter_append, h]

theorem diffScan_getElem (key : Row → List (Option String)) (get : Row → ℚ)
    (setd : Row → ℚ → Row) :
    ∀ (l pre : List Row) (i : ℕ) (r : Row), l[i]? = some r →
      (diffScan key get setd l ((pre.map fun x => (key x, get x)).reverse))[i]? =
        some (setd r
          (match prevSeriesVal key get (key r) (pre ++ l.take i) with
           | some v => get r - v
           | none => 0)) := by
  intro l
  induction l with
  | nil =>
    intro pre i r h
    simp at h
  | cons a rest ih =>
    intro pre i r h
    cases i with
    | zero =>
      simp only [List.getElem?_cons_zero, Option.some_inj] at h
      subst h
      simp only [diffScan, List.getElem?_cons_zero, Option.some_inj,
        List.take_zero, List.append_nil]
      rw [alookup_seen key get (key a) pre]
    | succ i' =>
      simp only [List.getElem?_cons_succ] at h
      have hstep : ((key a, get a) :: (pre.map fun x => (key x, get x)).reverse)
          = (((pre ++ [a]).map fun x => (key x, get x)).reverse) := by
        simp
      simp only [diffScan, List.getElem?_cons_succ]
      rw [hstep]
      rw [ih (pre ++ [a]) i' r h]
      simp [List.take_succ_cons, List.append_assoc]

theorem calculate_monthly_diff_expand (dim : Dimension) (vm : ViewMode)
    (m : Metric) (a : Row) (t : List Row) (h : t ≠ []) :
    calculate_monthly_diff dim vm m (a :: t) =
      a :: diffScan (seriesKey dim vm) m.get m.setD
        (List.insertionSort (RLE dim vm) t) [] := by
  have hl : 0 < t.length := List.length_pos.mpr h
  have hgt : (a :: t).length > 1 := by
    simp
    omega
  unfold calculate_monthly_diff
  simp only [hgt, if_pos, List.tail_cons]
  rw [if_neg (by simpa using Nat.pos_iff_ne_zero.mp hl)]
  simp

/-- Claim C3 (confirmed): `calculate_monthly_diff` keeps the frame's length,
sorts the data rows (all but the pinned first row) ascending by
(年月数值, dimension, status), and attaches to the row at sorted position `i`
the delta "its value minus the value of the last earlier row of the same
dimension/status series" — i.e. the same series' immediately preceding
period in the period-ascending order, never a row of another series — and
exactly `0` when no such earlier row exists (the first period of each
series, whose NaN diff is `fillna(0)`-ed). -/
theorem C3_theorem (dim : Dimension) (vm : ViewMode) (m : Metric)
    (df : List Row) (h : 1 < df.length) :
    (calculate_monthly_diff dim vm m df).length = df.length ∧
    List.Sorted (RLE dim vm) (List.insertionSort (RLE dim vm) df.tail) ∧
    ∀ (i : ℕ) (r : Row),
      (List.insertionSort (RLE dim vm) df.tail)[i]? = some r →
      (calculate_monthly_diff dim vm m df)[i + 1]? =
        some (m.setD r
          (match prevSeriesVal (seriesKey dim vm) m.get (seriesKey dim vm r)
              ((List.insertionSort (RLE dim vm) df.tail).take i) with
           | some v => m.get r - v
           | none => 0)) := by
  refine ⟨calculate_monthly_diff_length dim vm m df,
    List.sorted_insertionSort _ _, ?_⟩
  intro i r hi
  cases df with
  | nil => simp at h
  | cons a t =>
    have ht : t ≠ [] := by
      intro he
      rw [he] at h
      simp at h
    rw [calculate_monthly_diff_expand dim vm m a t ht]
    rw [List.getElem?_cons_succ]
    have := diffScan_getElem (seriesKey dim vm) m.get m.setD
      (List.insertionSort (RLE dim vm) t) [] i r (by simpa using hi)
    simpa using this

/-- Witness for C3 at a concrete input. -/
theorem C3_witness :
    (calculate_monthly_diff Dimension.overall ViewMode.summary Metric.cnt
      xdf).length = xdf.length ∧
    List.Sorted (RLE Dimension.overall ViewMode.summary)
      (List.insertionSort (RLE Dimension.overall ViewMode.summary) xdf.tail) :=
  ⟨(C3_theorem Dimension.overall ViewMode.summary Metric.cnt xdf (by decide)).1,
   (C3_theorem Dimension.overall ViewMode.summary Metric.cnt xdf (by decide)).2.1⟩

end Logistics
